import Mathlib

/-!
Verification of the retrieval-and-memory engine of the RAG_filtering
repository (src/main.py), as a shallow embedding in Lean 4.

Modelling conventions:
- Pure post-processing code is translated to Lean functions directly.
- Every external call (OpenAI chat completion, Chroma vector search,
  BM25 invoke) is abstracted as a function parameter; calls that can
  raise are modelled as `Except Err`-valued functions, since Python
  exceptions propagate out of `RAGChatBot` unhandled.
- Python `dict` (insertion-ordered, update-in-place) is modelled as an
  association list whose update replaces the value at the first
  matching key and otherwise appends the new key at the tail.
- Python `sorted(..., key=lambda x: x[1], reverse=True)` is a stable
  descending sort; it is modelled by `List.insertionSort` with the
  reflexive relation "left score is at least right score", which is
  stable in the same sense (the stable descending sort of a list is
  unique, so any stable implementation is a faithful model).
- Python float arithmetic on the RRF scores is modelled exactly over ℚ.
- Mutable object state (`self.chat_history`, `self.summary`,
  `self.memory_type`) is an explicit `BotState` record threaded through
  the functions that read or write it.
-/

/-- Error values carried by failing external calls. -/
abbrev Err := String

/-- Python `str.strip()` with no arguments: remove whitespace from both
ends of the string.  (`String.trim` is not used because it does not
reduce inside the kernel; this char-list version is extensionally the
same operation and fully computable.) -/
def py_strip (s : String) : String :=
  String.mk (((s.data.dropWhile Char.isWhitespace).reverse.dropWhile Char.isWhitespace).reverse)

/-- The closed category set, src/main.py lines 18-24. -/
def VALID_CATEGORIES : List String :=
  ["SOPs",
   "HR_Manual",
   "Technical_Specifications",
   "Finance_Policy",
   "Legal_Contracts"]

/-- Post-processing of the classifier generation output,
src/main.py lines 212-220 (`RAGChatBot.classify_query` after the chat
completion returns).  `raw` is the raw generator output
(`response.choices[0].message.content`); Python `.strip()` (whitespace
trimming only) is modelled by `py_strip`. -/
def classify_query (raw : String) : String :=
  let category := py_strip raw
  if category ∉ VALID_CATEGORIES then "SOPs" else category

/-- A retrieved chunk: `page_content` plus the `category` entry of its
metadata (`doc.metadata.get("category")` yields `none` when absent). -/
structure Doc where
  page_content : String
  category : Option String
deriving DecidableEq, Repr

/-- One conversational turn, stored as the tuple `(User, AI)`
(src/main.py line 41). -/
abbrev Turn := String × String

/-- The mutable state of a `RAGChatBot` instance: `chat_history`,
`summary` and `memory_type` (src/main.py lines 41-44;
`max_history_len` is the constant 5). -/
structure BotState where
  chat_history : List Turn
  summary : String
  memory_type : String
deriving DecidableEq, Repr

/-- Window size, src/main.py line 43 (`self.max_history_len = 5`). -/
def max_history_len : Nat := 5

/-- The freshly constructed state (src/main.py lines 41-44). -/
def init_state (memory_type : String) : BotState :=
  { chat_history := [], summary := "", memory_type := memory_type }

/-- Rendering of the recent history block, src/main.py line 133 and
lines 323/338. -/
def recent_history_str (hist : List Turn) : String :=
  String.intercalate "\n" (hist.map (fun h => "User: " ++ h.1 ++ "\nAssistant: " ++ h.2))

/-- System instruction of the rephraser, src/main.py lines 136-144
(indentation whitespace of the Python triple-quoted literal is
normalised). -/
def rephrase_system_instruction : String :=
  "You are an intelligent query clarifier.\nYour job is to rewrite the \x27Follow-up input\x27 into a STANDALONE QUESTION.\n\nRules:\n1. Use the \x27Context Summary\x27 and \x27Recent Chat History\x27 to resolve pronouns (it, that, he, she).\n2. If the user input is already clear, return it as is.\n3. Do NOT answer the question. Just rewrite it."

/-- User content of the rephraser call, src/main.py lines 147-158. -/
def rephrase_user_content (summary_block recent q : String) : String :=
  "--- CONTEXT SUMMARY (Older Conversations) ---\n" ++ summary_block ++
  "\n\n--- RECENT CHAT HISTORY (Last 5 Messages) ---\n" ++ recent ++
  "\n\n--- FOLLOW-UP INPUT ---\n" ++ q ++ "\n\nStandalone Question:"

/-- `RAGChatBot.rephrase_query`, src/main.py lines 123-170.  `gen`
abstracts the chat-completion call of lines 161-168 (system message,
user message → output text).  The Bool records whether the generation
call was performed (instrumentation used to state the claims about
call occurrence; the source performs the call exactly on the `else`
branch). -/
def rephrase_query (gen : String → String → Except Err String)
    (hist : List Turn) (summary : String) (q : String) :
    Except Err String × Bool :=
  if hist.isEmpty && summary.isEmpty then
    (Except.ok q, false)
  else
    let content := rephrase_user_content
      (if summary.isEmpty then "No summary available." else summary)
      (recent_history_str hist) q
    match gen rephrase_system_instruction content with
    | Except.error e => (Except.error e, true)
    | Except.ok out => (Except.ok (py_strip out), true)

/-- C1: for every generator output string, `classify_query` yields a
member of `VALID_CATEGORIES`; whenever the whitespace-trimmed output is
not an exact member of the closed set, the fixed default category (the
first element of `VALID_CATEGORIES`, namely "SOPs") is returned instead
of the invalid value, and the function is total (never raises). -/
theorem classify_query_closed (raw : String) :
    classify_query raw ∈ VALID_CATEGORIES ∧
      (py_strip raw ∉ VALID_CATEGORIES → classify_query raw = VALID_CATEGORIES.headI) := by
  unfold classify_query
  by_cases h : py_strip raw ∈ VALID_CATEGORIES
  · rw [if_neg (not_not_intro h)]
    exact ⟨h, fun hn => absurd h hn⟩
  · rw [if_pos h]
    exact ⟨by decide, fun _ => rfl⟩

/-- Witness for C1: the out-of-set output "Bananas" resolves to the
default category. -/
theorem classify_query_closed_witness :
    classify_query "Bananas" = VALID_CATEGORIES.headI :=
  (classify_query_closed "Bananas").2 (by decide)

/-- C5: with empty chat history and empty summary, `rephrase_query`
returns the query unchanged and performs no generation call; this is
the state of every session at its first query. -/
theorem rephrase_first_query_passthrough
    (gen : String → String → Except Err String) (q : String) :
    rephrase_query gen [] "" q = (Except.ok q, false) := rfl

/-- C7 (code bug): `classify_query` only strips whitespace, not
punctuation, so a valid category name followed by a period falls
through to the default category instead of resolving to that category
("HR_Manual" is a member of the closed set, yet "HR_Manual." yields
"SOPs"). -/
theorem classify_trim_punctuation_bug :
    classify_query "HR_Manual." = "SOPs" ∧ "HR_Manual" ∈ VALID_CATEGORIES := by
  exact ⟨by decide, by decide⟩

/-- `RAGChatBot.manage_history`, src/main.py lines 87-120.  `summarize`
abstracts the summarization chat completion of lines 112-119 (current
summary and the evicted `(user, ai)` turn → new summary); it may fail,
in which case the oldest turn has already been popped (line 94) but the
summary is left unchanged, and the error propagates.  The trailing
`Nat` counts compaction steps performed by this call (0 or 1);
it is instrumentation for the window-bound claim. -/
def manage_history (summarize : String → Turn → Except Err String)
    (s : BotState) : BotState × Except Err Unit × Nat :=
  if s.chat_history.length > max_history_len then
    match s.chat_history with
    | [] => (s, Except.ok (), 0)
    | oldest :: rest =>
      match summarize s.summary oldest with
      | Except.error e => ({ s with chat_history := rest }, Except.error e, 1)
      | Except.ok newSummary =>
        ({ s with chat_history := rest, summary := newSummary }, Except.ok (), 1)
  else (s, Except.ok (), 0)

/-- The memory mutation performed at the end of a successful turn,
src/main.py lines 360-362: append the `(user_query, final_answer)`
tuple to `chat_history`, then run `manage_history`. -/
def append_and_manage (summarize : String → Turn → Except Err String)
    (s : BotState) (t : Turn) : BotState × Except Err Unit × Nat :=
  manage_history summarize { s with chat_history := s.chat_history ++ [t] }

/-- Lift a total summarizer to the `Except`-valued interface (a
summarization call that always succeeds). -/
def ok_summarizer (f : String → Turn → String) :
    String → Turn → Except Err String :=
  fun su t => Except.ok (f su t)

/-- Run a sequence of appended turns through the memory manager,
accumulating the number of compactions performed. -/
def run_appends (f : String → Turn → String) (s : BotState) :
    List Turn → BotState × Nat
  | [] => (s, 0)
  | t :: ts =>
    let r := append_and_manage (ok_summarizer f) s t
    let rest := run_appends f r.1 ts
    (rest.1, r.2.2 + rest.2)

/-- Below the window, an append extends the history and performs no
compaction. -/
theorem append_and_manage_short (f : String → Turn → String)
    (s : BotState) (t : Turn) (h : s.chat_history.length ≤ 4) :
    append_and_manage (ok_summarizer f) s t =
      ({ s with chat_history := s.chat_history ++ [t] }, Except.ok (), 0) := by
  unfold append_and_manage manage_history
  rw [if_neg]
  simp [max_history_len]
  omega

/-- At the window bound, an append evicts exactly the oldest turn,
folds it into the summary, and counts one compaction. -/
theorem append_and_manage_full (f : String → Turn → String)
    (s : BotState) (o : Turn) (rest : List Turn) (t : Turn)
    (hch : s.chat_history = o :: rest) (hlen : rest.length = 4) :
    append_and_manage (ok_summarizer f) s t =
      ({ chat_history := rest ++ [t], summary := f s.summary o,
         memory_type := s.memory_type }, Except.ok (), 1) := by
  unfold append_and_manage manage_history
  rw [hch]
  rw [if_pos (by simp [max_history_len]; omega)]
  simp [ok_summarizer]

/-- Core induction for the window bound: from any state within the
bound, running `n` more appends leaves `min (L + n) 5` turns and
performs `L + n - 5` compactions in total (truncated subtraction). -/
theorem run_appends_spec (f : String → Turn → String) (ts : List Turn) :
    ∀ s : BotState, s.chat_history.length ≤ 5 →
      (run_appends f s ts).1.chat_history.length
          = min (s.chat_history.length + ts.length) 5 ∧
        (run_appends f s ts).2 = s.chat_history.length + ts.length - 5 := by
  induction ts with
  | nil =>
    intro s h
    constructor
    · simp [run_appends]; omega
    · simp [run_appends]; omega
  | cons t ts ih =>
    intro s h
    by_cases h4 : s.chat_history.length ≤ 4
    · have hstep := append_and_manage_short f s t h4
      have hlen' : ({ s with chat_history := s.chat_history ++ [t]} :
          BotState).chat_history.length ≤ 5 := by simp; omega
      have := ih _ hlen'
      constructor
      · show (run_appends f s (t :: ts)).1.chat_history.length = _
        simp only [run_appends, hstep]
        rw [this.1]
        simp
        omega
      · show (run_appends f s (t :: ts)).2 = _
        simp only [run_appends, hstep]
        rw [this.2]
        simp
        omega
    · have h5 : s.chat_history.length = 5 := by omega
      rcases hch : s.chat_history with _ | ⟨o, rest⟩
      · rw [hch] at h5; simp at h5
      · have hlen : rest.length = 4 := by
          rw [hch] at h5; simp at h5; omega
        have hstep := append_and_manage_full f s o rest t hch hlen
        have hlen' : (BotState.mk (rest ++ [t]) (f s.summary o)
            s.memory_type).chat_history.length ≤ 5 := by
          simp; omega
        have := ih _ hlen'
        constructor
        · show (run_appends f s (t :: ts)).1.chat_history.length = _
          simp only [run_appends, hstep]
          rw [this.1]
          simp [hlen]
        · show (run_appends f s (t :: ts)).2 = _
          simp only [run_appends, hstep]
          rw [this.2]
          simp [hlen]
          omega

/-- C2: starting from a fresh session, (i) the window invariant
`len(chat_history) ≤ 5` holds after every append (that is, after every
prefix of the mutation sequence); (ii) after all `N` appends the
history holds `min N 5` turns, so exactly `5` when `N > 5`; (iii)
exactly `N - 5` compactions have occurred (truncated subtraction, so
none when `N ≤ 5`); and (iv) an append that crosses the threshold
evicts exactly the single oldest turn and folds it into the summary
via one compaction call. -/
theorem manage_history_window (f : String → Turn → String)
    (mt : String) (ts : List Turn) :
    (∀ p, p <+: ts → (run_appends f (init_state mt) p).1.chat_history.length ≤ 5) ∧
      (run_appends f (init_state mt) ts).1.chat_history.length = min ts.length 5 ∧
      (run_appends f (init_state mt) ts).2 = ts.length - 5 ∧
      (∀ (s : BotState) (o t : Turn) (rest : List Turn),
        s.chat_history = o :: rest → rest.length = 4 →
        append_and_manage (ok_summarizer f) s t =
          ({ chat_history := rest ++ [t], summary := f s.summary o,
             memory_type := s.memory_type }, Except.ok (), 1)) := by
  have hinit : (init_state mt).chat_history.length ≤ 5 := by simp [init_state]
  refine ⟨?_, ?_, ?_, ?_⟩
  · intro p _
    have := (run_appends_spec f p (init_state mt) hinit).1
    rw [this]
    simp [init_state]
  · have := (run_appends_spec f ts (init_state mt) hinit).1
    rw [this]; simp [init_state]
  · have := (run_appends_spec f ts (init_state mt) hinit).2
    rw [this]; simp [init_state]
  · intro s o t rest hch hlen
    exact append_and_manage_full f s o rest t hch hlen

/-- Witness for C2: seven appended turns leave exactly five in the
window with two compactions, and a concrete crossing append evicts the
oldest turn into the summary. -/
theorem manage_history_window_witness :
    (run_appends (fun su t => su ++ t.1 ++ t.2) (init_state "top_k")
        [("u1", "a1"), ("u2", "a2"), ("u3", "a3"), ("u4", "a4"),
         ("u5", "a5"), ("u6", "a6"), ("u7", "a7")]).1.chat_history.length = min 7 5 ∧
      (run_appends (fun su t => su ++ t.1 ++ t.2) (init_state "top_k")
        [("u1", "a1"), ("u2", "a2"), ("u3", "a3"), ("u4", "a4"),
         ("u5", "a5"), ("u6", "a6"), ("u7", "a7")]).2 = 7 - 5 ∧
      append_and_manage (ok_summarizer (fun su t => su ++ t.1 ++ t.2))
          ({ chat_history := [("u1", "a1"), ("u2", "a2"), ("u3", "a3"),
              ("u4", "a4"), ("u5", "a5")], summary := "S",
             memory_type := "top_k" }) ("u6", "a6") =
        ({ chat_history := [("u2", "a2"), ("u3", "a3"), ("u4", "a4"),
            ("u5", "a5"), ("u6", "a6")], summary := "S" ++ "u1" ++ "a1",
           memory_type := "top_k" }, Except.ok (), 1) := by
  have h := manage_history_window (fun su t => su ++ t.1 ++ t.2) "top_k"
    [("u1", "a1"), ("u2", "a2"), ("u3", "a3"), ("u4", "a4"),
     ("u5", "a5"), ("u6", "a6"), ("u7", "a7")]
  refine ⟨by simpa using h.2.1, by simpa using h.2.2.1, ?_⟩
  have h4 := h.2.2.2 ({ chat_history := [("u1", "a1"), ("u2", "a2"), ("u3", "a3"),
      ("u4", "a4"), ("u5", "a5")], summary := "S", memory_type := "top_k" })
    ("u1", "a1") ("u6", "a6")
    [("u2", "a2"), ("u3", "a3"), ("u4", "a4"), ("u5", "a5")] rfl rfl
  simpa using h4

/-- The fixed RRF constant, src/main.py line 260 (`k_constant = 60`);
scores are carried in ℚ. -/
def k_constant : ℚ := 60

/-- One Python dict update `d[c] = d.get(c, 0) + x` on the
insertion-ordered score dictionary: the first entry with key `c` has
its value incremented in place, otherwise the new key is appended at
the tail. -/
def rrf_update (m : List (String × ℚ)) (c : String) (x : ℚ) :
    List (String × ℚ) :=
  match m with
  | [] => [(c, x)]
  | p :: rest => if p.1 == c then (p.1, p.2 + x) :: rest else p :: rrf_update rest c x

/-- One scoring loop of src/main.py lines 263-265 / 268-270: walk the
ranked list with its 0-based rank and add `1 / (k_constant + rank + 1)`
to the entry keyed by the chunk text. -/
def rrf_pass (m : List (String × ℚ)) (docs : List Doc) (rank : Nat) :
    List (String × ℚ) :=
  match docs with
  | [] => m
  | d :: ds =>
    rrf_pass (rrf_update m d.page_content (1 / (k_constant + rank + 1))) ds (rank + 1)

/-- The RRF score dictionary of src/main.py lines 259-270: score the
vector results, then the (filtered) BM25 results, starting from the
empty dict. -/
def rrf_scores (vector_docs bm25_filtered : List Doc) : List (String × ℚ) :=
  rrf_pass (rrf_pass [] vector_docs 0) bm25_filtered 0

/-- Python `sorted(items, key=lambda x: x[1], reverse=True)`
(src/main.py line 273): a stable descending sort on the score
component, modelled by insertion sort with the reflexive total
relation "left score ≥ right score" (which is stable in exactly the
same sense as Python sorted). -/
def py_sorted_desc (l : List (String × ℚ)) : List (String × ℚ) :=
  l.insertionSort (fun a b => b.2 ≤ a.2)

/-- One Python dict update `doc_map[content] = doc`
(src/main.py lines 254-256). -/
def doc_map_update (m : List (String × Doc)) (d : Doc) :
    List (String × Doc) :=
  match m with
  | [] => [(d.page_content, d)]
  | p :: rest =>
    if p.1 == d.page_content then (p.1, d) :: rest else p :: doc_map_update rest d

/-- The document map of src/main.py lines 254-256, built over the
concatenation of the vector results and the filtered BM25 results
(later entries with the same text overwrite earlier ones). -/
def build_doc_map (docs : List Doc) : List (String × Doc) :=
  docs.foldl doc_map_update []

/-- Lookup `doc_map[content]` (src/main.py line 276).  The fallback
value is never reached: every scored content was inserted into the
map. -/
def doc_lookup (m : List (String × Doc)) (c : String) : Doc :=
  match m.find? (fun p => p.1 == c) with
  | some p => p.2
  | none => { page_content := c, category := none }

/-- Rank fusion of src/main.py lines 253-281: build the document map,
compute RRF scores, sort them descending (stable), reconstruct the
documents in score order and return the top `k`. -/
def fuse (vector_docs bm25_filtered : List Doc) (k : Nat) : List Doc :=
  let doc_map := build_doc_map (vector_docs ++ bm25_filtered)
  let sorted_contents := py_sorted_desc (rrf_scores vector_docs bm25_filtered)
  (sorted_contents.map (fun p => doc_lookup doc_map p.1)).take k

/-- Client-side BM25 filtering, src/main.py lines 236-247: when the
BM25 retriever is absent (`None`) the lexical list is empty; otherwise
keep exactly the raw results whose category metadata equals the
requested category. -/
def bm25_filter (bm25_raw : Option (List Doc)) (category : String) : List Doc :=
  match bm25_raw with
  | none => []
  | some raw => raw.filter (fun d => decide (d.category = some category))

/-- `RAGChatBot.hybrid_search`, src/main.py lines 225-281, with the
results of the two external index calls as inputs: `vector_docs` is
what `self.vector_db.similarity_search` returned and `bm25_raw` is
what `self.bm25_retriever.invoke` returned (`none` when the retriever
is `None`). -/
def hybrid_search (vector_docs : List Doc) (bm25_raw : Option (List Doc))
    (category : String) (k : Nat) : List Doc :=
  fuse vector_docs (bm25_filter bm25_raw category) k

/-- Spec-side RRF contribution of one ranked list, summed over the
positions (counted from `rank`) at which the content occurs. -/
def spec_rrf_contrib (docs : List Doc) (c : String) (rank : Nat) : ℚ :=
  match docs with
  | [] => 0
  | d :: ds =>
    (if d.page_content = c then 1 / (k_constant + rank + 1) else 0) +
      spec_rrf_contrib ds c (rank + 1)

/-- Spec-side RRF score formula for one list (spec §4.4, step 3): a
chunk appearing in the list at 0-based rank `r` contributes
`1 / (60 + r + 1)`, a chunk not appearing contributes nothing. -/
def spec_list_rrf (docs : List Doc) (c : String) : ℚ :=
  if c ∈ docs.map Doc.page_content then
    1 / (k_constant + ((docs.map Doc.page_content).indexOf c : ℚ) + 1)
  else 0

/-- First-encounter order of a list of contents: the distinct values
in the order in which they first occur. -/
def first_encounter (cs : List String) : List String :=
  cs.foldl (fun acc c => if c ∈ acc then acc else acc ++ [c]) []

/-- Dictionary read `d.get(c, 0)` on the score dictionary. -/
def rrf_get (m : List (String × ℚ)) (c : String) : ℚ :=
  match m with
  | [] => 0
  | p :: rest => if p.1 == c then p.2 else rrf_get rest c

/-- One dictionary update changes the stored score exactly at the
updated key, adding the increment to the previous (default-0) value. -/
theorem rrf_get_update (m : List (String × ℚ)) (c c' : String) (x : ℚ) :
    rrf_get (rrf_update m c x) c' =
      if c' = c then rrf_get m c + x else rrf_get m c' := by
  induction m with
  | nil =>
    by_cases h : c' = c
    · subst h; simp [rrf_update, rrf_get]
    · simp [rrf_update, rrf_get, h, Ne.symm h]
  | cons p rest ih =>
    rcases p with ⟨kk, vv⟩
    by_cases hk : kk = c
    · subst hk
      by_cases h' : c' = kk
      · subst h'; simp [rrf_update, rrf_get]
      · simp [rrf_update, rrf_get, h', Ne.symm h']
    · by_cases h' : c' = kk
      · subst h'
        have hck : c ≠ c' := fun h => hk h.symm
        simp [rrf_update, rrf_get, hk, hck, Ne.symm hck]
      · have hkc' : kk ≠ c' := fun h => h' h.symm
        simp [rrf_update, rrf_get, hk, h', hkc', ih]

/-- One scoring loop adds to every key exactly the spec-side
rank-indexed contribution of the scanned list. -/
theorem rrf_get_pass (docs : List Doc) :
    ∀ (m : List (String × ℚ)) (rank : Nat) (c : String),
      rrf_get (rrf_pass m docs rank) c = rrf_get m c + spec_rrf_contrib docs c rank := by
  induction docs with
  | nil => intro m rank c; simp [rrf_pass, spec_rrf_contrib]
  | cons d ds ih =>
    intro m rank c
    simp only [rrf_pass, spec_rrf_contrib]
    rw [ih, rrf_get_update]
    by_cases h : d.page_content = c
    · rw [if_pos h.symm, if_pos h, h]; ring
    · rw [if_neg (fun hh => h hh.symm), if_neg h]; ring

/-- The final score dictionary stores, at each key, the sum of the
rank-indexed contributions of the two ranked lists. -/
theorem rrf_get_scores (v l : List Doc) (c : String) :
    rrf_get (rrf_scores v l) c =
      spec_rrf_contrib v c 0 + spec_rrf_contrib l c 0 := by
  unfold rrf_scores
  rw [rrf_get_pass, rrf_get_pass]
  simp [rrf_get]

/-- A dictionary update keeps the key order and appends an unseen key
at the tail. -/
theorem keys_rrf_update (m : List (String × ℚ)) (c : String) (x : ℚ) :
    (rrf_update m c x).map Prod.fst =
      if c ∈ m.map Prod.fst then m.map Prod.fst else m.map Prod.fst ++ [c] := by
  induction m with
  | nil => simp [rrf_update]
  | cons p rest ih =>
    rcases p with ⟨kk, vv⟩
    by_cases hk : kk = c
    · subst hk; simp [rrf_update]
    · by_cases hc : c ∈ rest.map Prod.fst
      · simp [rrf_update, hk, hc, ih, Ne.symm hk]
      · simp [rrf_update, hk, hc, ih, Ne.symm hk]

/-- The keys of a scoring loop are obtained by inserting the scanned
contents, in order, each at the tail unless already present. -/
theorem keys_rrf_pass (docs : List Doc) :
    ∀ (m : List (String × ℚ)) (rank : Nat),
      (rrf_pass m docs rank).map Prod.fst =
        (docs.map Doc.page_content).foldl
          (fun acc c => if c ∈ acc then acc else acc ++ [c]) (m.map Prod.fst) := by
  induction docs with
  | nil => intro m rank; simp [rrf_pass]
  | cons d ds ih =>
    intro m rank
    simp only [rrf_pass, List.map_cons, List.foldl_cons]
    rw [ih, keys_rrf_update]

/-- The key order of the score dictionary is the first-encounter order
of the contents, vector list scanned before the lexical list. -/
theorem keys_rrf_scores (v l : List Doc) :
    (rrf_scores v l).map Prod.fst =
      first_encounter ((v ++ l).map Doc.page_content) := by
  unfold rrf_scores first_encounter
  rw [keys_rrf_pass, keys_rrf_pass]
  simp [List.foldl_append]

/-- Dictionary updates preserve distinctness of the keys. -/
theorem nodup_keys_rrf_update (m : List (String × ℚ)) (c : String) (x : ℚ)
    (h : (m.map Prod.fst).Nodup) : ((rrf_update m c x).map Prod.fst).Nodup := by
  rw [keys_rrf_update]
  by_cases hc : c ∈ m.map Prod.fst
  · rw [if_pos hc]; exact h
  · rw [if_neg hc]
    exact h.append (List.nodup_singleton c) (by simpa [List.disjoint_singleton] using hc)

/-- Scoring loops preserve distinctness of the keys. -/
theorem nodup_keys_rrf_pass (docs : List Doc) :
    ∀ (m : List (String × ℚ)) (rank : Nat), (m.map Prod.fst).Nodup →
      ((rrf_pass m docs rank).map Prod.fst).Nodup := by
  induction docs with
  | nil => intro m rank h; simpa [rrf_pass] using h
  | cons d ds ih =>
    intro m rank h
    exact ih _ _ (nodup_keys_rrf_update m d.page_content _ h)

/-- The score dictionary has distinct keys. -/
theorem nodup_keys_rrf_scores (v l : List Doc) :
    ((rrf_scores v l).map Prod.fst).Nodup :=
  nodup_keys_rrf_pass l _ 0 (nodup_keys_rrf_pass v [] 0 (by simp))

/-- In a dictionary with distinct keys, every entry holds the value
read back at its key. -/
theorem rrf_get_of_mem (m : List (String × ℚ)) (p : String × ℚ)
    (hn : (m.map Prod.fst).Nodup) (hp : p ∈ m) : p.2 = rrf_get m p.1 := by
  induction m with
  | nil => simp at hp
  | cons q rest ih =>
    rcases List.mem_cons.mp hp with rfl | hp'
    · simp [rrf_get]
    · have hq : q.1 ≠ p.1 := by
        intro he
        have hmem : p.1 ∈ rest.map Prod.fst := List.mem_map_of_mem Prod.fst hp'
        rw [← he] at hmem
        exact ((List.nodup_cons.mp (by simpa using hn)).1) hmem
      have hn' : (rest.map Prod.fst).Nodup := (List.nodup_cons.mp (by simpa using hn)).2
      simp [rrf_get, hq, ih hn' hp']

/-- A content absent from a list contributes nothing. -/
theorem spec_rrf_contrib_of_not_mem (docs : List Doc) (c : String)
    (h : c ∉ docs.map Doc.page_content) :
    ∀ rank, spec_rrf_contrib docs c rank = 0 := by
  induction docs with
  | nil => intro rank; simp [spec_rrf_contrib]
  | cons d ds ih =>
    intro rank
    have h1 : d.page_content ≠ c := by
      intro he; exact h (by simp [he])
    have h2 : c ∉ ds.map Doc.page_content := fun hm => h (by simp [hm])
    simp [spec_rrf_contrib, h1, ih h2]

/-- On a duplicate-free list, the rank-indexed contribution of a
present content is exactly `1 / (60 + rank + 1)` at its 0-based
position. -/
theorem spec_rrf_contrib_nodup (docs : List Doc) (c : String) :
    ∀ rank, (docs.map Doc.page_content).Nodup → c ∈ docs.map Doc.page_content →
      spec_rrf_contrib docs c rank =
        1 / (k_constant + ((rank + (docs.map Doc.page_content).indexOf c : Nat) : ℚ) + 1) := by
  induction docs with
  | nil => intro rank _ hc; simp at hc
  | cons d ds ih =>
    intro rank hnd hc
    by_cases h : d.page_content = c
    · have h0 : ((d :: ds).map Doc.page_content).indexOf c = 0 := by
        simp only [List.map_cons]
        exact List.indexOf_cons_eq _ h
      have hnotin : c ∉ ds.map Doc.page_content := by
        rw [← h]
        exact (List.nodup_cons.mp (by simpa using hnd)).1
      rw [h0]
      simp [spec_rrf_contrib, h, spec_rrf_contrib_of_not_mem ds c hnotin]
    · have hc' : c ∈ ds.map Doc.page_content := by
        rw [List.map_cons] at hc
        rcases List.mem_cons.mp hc with h1 | h1
        · exact absurd h1.symm h
        · exact h1
      have hidx : ((d :: ds).map Doc.page_content).indexOf c =
          (ds.map Doc.page_content).indexOf c + 1 := by
        simp only [List.map_cons]
        rw [List.indexOf_cons_ne _ h]
      have hnd' : (ds.map Doc.page_content).Nodup :=
        (List.nodup_cons.mp (by simpa using hnd)).2
      simp only [spec_rrf_contrib, if_neg h, zero_add]
      rw [ih (rank + 1) hnd' hc', hidx]
      congr 1
      push_cast
      ring

/-- On a duplicate-free list the rank-indexed contribution starting at
rank 0 coincides with the spec-side score formula. -/
theorem spec_list_rrf_eq_contrib (docs : List Doc) (c : String)
    (hnd : (docs.map Doc.page_content).Nodup) :
    spec_rrf_contrib docs c 0 = spec_list_rrf docs c := by
  unfold spec_list_rrf
  by_cases hc : c ∈ docs.map Doc.page_content
  · rw [if_pos hc, spec_rrf_contrib_nodup docs c 0 hnd hc]
    simp
  · rw [if_neg hc, spec_rrf_contrib_of_not_mem docs c hc]

/-- Inserting an element whose score equals `s` places it in front of
every other element of score `s` already present (those sit at or
after the insertion point), so the score-`s` subsequence gains the new
element at its head. -/
theorem filter_orderedInsert_eq (s : ℚ) (x : String × ℚ) (hx : x.2 = s)
    (l : List (String × ℚ)) :
    (List.orderedInsert (fun a b => b.2 ≤ a.2) x l).filter (fun p => decide (p.2 = s)) =
      x :: l.filter (fun p => decide (p.2 = s)) := by
  induction l with
  | nil => simp [List.orderedInsert, hx]
  | cons b t ih =>
    simp only [List.orderedInsert]
    by_cases h : b.2 ≤ x.2
    · rw [if_pos h]
      simp [List.filter_cons, hx]
    · rw [if_neg h]
      have hb : ¬b.2 = s := by
        intro hb
        rw [hx] at h
        exact h (le_of_eq hb)
      simp [List.filter_cons, hb, ih]

/-- Inserting an element whose score differs from `s` leaves the
score-`s` subsequence unchanged. -/
theorem filter_orderedInsert_ne (s : ℚ) (x : String × ℚ) (hx : ¬x.2 = s)
    (l : List (String × ℚ)) :
    (List.orderedInsert (fun a b => b.2 ≤ a.2) x l).filter (fun p => decide (p.2 = s)) =
      l.filter (fun p => decide (p.2 = s)) := by
  induction l with
  | nil => simp [List.orderedInsert, hx]
  | cons b t ih =>
    simp only [List.orderedInsert]
    by_cases h : b.2 ≤ x.2
    · rw [if_pos h]
      simp [List.filter_cons, hx]
    · rw [if_neg h]
      simp [List.filter_cons, ih]

/-- Stability of the descending sort: for every score value, the
subsequence of entries carrying that score is unchanged by sorting. -/
theorem filter_py_sorted_desc (s : ℚ) (l : List (String × ℚ)) :
    (py_sorted_desc l).filter (fun p => decide (p.2 = s)) =
      l.filter (fun p => decide (p.2 = s)) := by
  unfold py_sorted_desc
  induction l with
  | nil => rfl
  | cons x t ih =>
    simp only [List.insertionSort]
    by_cases hx : x.2 = s
    · rw [filter_orderedInsert_eq s x hx, ih]
      simp [List.filter_cons, hx]
    · rw [filter_orderedInsert_ne s x hx, ih]
      simp [List.filter_cons, hx]

/-- The sorted score list is descending in the score component. -/
theorem sorted_py_sorted_desc (m : List (String × ℚ)) :
    List.Sorted (fun a b : ℚ => b ≤ a) ((py_sorted_desc m).map Prod.snd) := by
  have h : List.Sorted (fun a b : String × ℚ => b.2 ≤ a.2) (py_sorted_desc m) := by
    haveI : IsTotal (String × ℚ) (fun a b => b.2 ≤ a.2) := ⟨fun a b => le_total b.2 a.2⟩
    haveI : IsTrans (String × ℚ) (fun a b => b.2 ≤ a.2) :=
      ⟨fun _ _ _ h1 h2 => le_trans h2 h1⟩
    exact List.sorted_insertionSort _ m
  exact List.pairwise_map.mpr h

/-- C3: on duplicate-free ranked lists, rank fusion assigns every
distinct chunk the score `1/(60+rank+1)` summed over the lists it
appears in (rank its 0-based position there; a chunk in both lists
accumulates both contributions), sorts the distinct chunks by
descending score, and returns the top `k` of the fused ranking, so the
result never exceeds `k` documents. -/
theorem hybrid_search_rrf_spec (v l : List Doc) (k : Nat)
    (hv : (v.map Doc.page_content).Nodup) (hl : (l.map Doc.page_content).Nodup) :
    (∀ p ∈ py_sorted_desc (rrf_scores v l),
        p.2 = spec_list_rrf v p.1 + spec_list_rrf l p.1) ∧
      List.Sorted (fun a b : ℚ => b ≤ a)
        ((py_sorted_desc (rrf_scores v l)).map Prod.snd) ∧
      fuse v l k = ((py_sorted_desc (rrf_scores v l)).map
        (fun p => doc_lookup (build_doc_map (v ++ l)) p.1)).take k ∧
      (fuse v l k).length ≤ k := by
  refine ⟨?_, sorted_py_sorted_desc _, rfl, ?_⟩
  · intro p hp
    have hp' : p ∈ rrf_scores v l := by
      have hperm := List.perm_insertionSort (fun a b : String × ℚ => b.2 ≤ a.2)
        (rrf_scores v l)
      exact hperm.mem_iff.mp hp
    rw [rrf_get_of_mem _ p (nodup_keys_rrf_scores v l) hp', rrf_get_scores,
      spec_list_rrf_eq_contrib v p.1 hv, spec_list_rrf_eq_contrib l p.1 hl]
  · unfold fuse
    simp [List.length_take]

/-- Witness for C3: the fused ranking of vector list `[A, B, C]` and
lexical list `[B, D]` (the spec test vectors) satisfies the scoring,
ordering and truncation clauses at `k = 2`. -/
theorem hybrid_search_rrf_spec_witness :
    (∀ p ∈ py_sorted_desc (rrf_scores
        [⟨"A", some "X"⟩, ⟨"B", some "X"⟩, ⟨"C", some "X"⟩]
        [⟨"B", some "X"⟩, ⟨"D", some "X"⟩]),
        p.2 = spec_list_rrf [⟨"A", some "X"⟩, ⟨"B", some "X"⟩, ⟨"C", some "X"⟩] p.1 +
          spec_list_rrf [⟨"B", some "X"⟩, ⟨"D", some "X"⟩] p.1) ∧
      List.Sorted (fun a b : ℚ => b ≤ a)
        ((py_sorted_desc (rrf_scores
          [⟨"A", some "X"⟩, ⟨"B", some "X"⟩, ⟨"C", some "X"⟩]
          [⟨"B", some "X"⟩, ⟨"D", some "X"⟩])).map Prod.snd) ∧
      fuse [⟨"A", some "X"⟩, ⟨"B", some "X"⟩, ⟨"C", some "X"⟩]
          [⟨"B", some "X"⟩, ⟨"D", some "X"⟩] 2 =
        ((py_sorted_desc (rrf_scores
          [⟨"A", some "X"⟩, ⟨"B", some "X"⟩, ⟨"C", some "X"⟩]
          [⟨"B", some "X"⟩, ⟨"D", some "X"⟩])).map
          (fun p => doc_lookup (build_doc_map
            ([⟨"A", some "X"⟩, ⟨"B", some "X"⟩, ⟨"C", some "X"⟩] ++
             [⟨"B", some "X"⟩, ⟨"D", some "X"⟩])) p.1)).take 2 ∧
      (fuse [⟨"A", some "X"⟩, ⟨"B", some "X"⟩, ⟨"C", some "X"⟩]
        [⟨"B", some "X"⟩, ⟨"D", some "X"⟩] 2).length ≤ 2 :=
  hybrid_search_rrf_spec
    [⟨"A", some "X"⟩, ⟨"B", some "X"⟩, ⟨"C", some "X"⟩]
    [⟨"B", some "X"⟩, ⟨"D", some "X"⟩] 2 (by decide) (by decide)

/-- C4: rank fusion is deterministic and breaks score ties by
first-encounter order: the entries of the score dictionary are keyed
in the order in which distinct contents are first met (vector list
scanned before lexical list), and for every score value the sorted
ranking lists the entries carrying that score in exactly the
dictionary (first-encounter) order. -/
theorem rrf_fusion_stable (v l : List Doc) (s : ℚ) :
    (py_sorted_desc (rrf_scores v l)).filter (fun p => decide (p.2 = s)) =
        (rrf_scores v l).filter (fun p => decide (p.2 = s)) ∧
      (rrf_scores v l).map Prod.fst =
        first_encounter ((v ++ l).map Doc.page_content) :=
  ⟨filter_py_sorted_desc s (rrf_scores v l), keys_rrf_scores v l⟩

/-- C8: the lexical results are filtered client-side to exactly the
entries whose category metadata equals the target category, in an
order-preserving way (the kept list is a sublist of the raw BM25
output); and an absent BM25 retriever behaves exactly like one that
returned no results, degrading `hybrid_search` to vector-only ranking
without an error. -/
theorem bm25_category_filter (raw v : List Doc) (cat : String) (k : Nat) :
    List.Sublist (bm25_filter (some raw) cat) raw ∧
      (∀ d, d ∈ bm25_filter (some raw) cat ↔ d ∈ raw ∧ d.category = some cat) ∧
      hybrid_search v none cat k = hybrid_search v (some []) cat k := by
  refine ⟨List.filter_sublist raw, ?_, rfl⟩
  intro d
  simp [bm25_filter, List.mem_filter]

/-- The external collaborators consumed by one request/response cycle
of `RAGChatBot.retrieval_augmented_generation`; each is abstracted as
an `Except`-valued function because any of the underlying calls may
raise. -/
structure Env where
  rephrase_gen : String → String → Except Err String
  classify_gen : String → Except Err String
  vector_search : String → String → Except Err (List Doc)
  bm25_invoke : Option (String → Except Err (List Doc))
  answer_gen : String → String → Except Err String
  summarize : String → Turn → Except Err String

/-- The retrieval step of `hybrid_search` seen from the orchestrator:
perform the vector-index call (src/main.py lines 229-231) and, when
the BM25 retriever exists, its invoke call (line 240), then run the
pure filtering/fusion logic on the results.  An error from either
index call propagates. -/
def hybrid_calls (env : Env) (standalone category : String) :
    Except Err (List Doc) :=
  match env.vector_search standalone category with
  | Except.error e => Except.error e
  | Except.ok vector_docs =>
    match env.bm25_invoke with
    | none => Except.ok (hybrid_search vector_docs none category 5)
    | some invoke =>
      match invoke standalone with
      | Except.error e => Except.error e
      | Except.ok raw => Except.ok (hybrid_search vector_docs (some raw) category 5)

/-- Context block assembled from the retrieved chunks, src/main.py
line 317. -/
def context_text (results : List Doc) : String :=
  String.intercalate "\n\n" (results.map (fun d => d.page_content))

/-- Final-answer system prompt, src/main.py lines 320-348: the
`memory_type` flag selects between the summary-plus-window and the
window-only presentation (whitespace of the Python triple-quoted
literals normalised). -/
def generation_system_prompt (s : BotState) (ctx : String) : String :=
  let recent := recent_history_str s.chat_history
  if s.memory_type == "summary" then
    "You are a helpful assistant for Acme Corp.\n\nPrevious Context Summary: " ++
      (if s.summary.isEmpty then "No previous summary." else s.summary) ++
      "\n\nRecent Conversation (Last 5 messages):\n" ++
      (if recent.isEmpty then "No recent conversation." else recent) ++
      "\n\nAnswer the question using ONLY the retrieved context below.\nContext:\n" ++ ctx
  else
    "You are a helpful assistant for Acme Corp.\n\nRecent Conversation (Last 5 messages):\n" ++
      (if recent.isEmpty then "No recent conversation." else recent) ++
      "\n\nAnswer the question using ONLY the retrieved context below.\nContext:\n" ++ ctx

/-- Outcome of the calls of one turn up to and including final-answer
generation. -/
inductive TurnOutcome where
  | noDocs (category : String)
  | answered (answer : String) (category : String)
deriving DecidableEq, Repr

/-- The fixed sentinel answer of src/main.py line 314. -/
def sentinel_answer : String := "No relevant documents found in this category."

/-- The sequence of external calls of one turn before any memory
mutation, src/main.py lines 293-358: rephrase, classify, retrieve,
and (only when retrieval is non-empty) generate the final answer.  The
first error encountered propagates.  The Bool instrumentation records
whether the final-answer generation call was issued. -/
def run_turn_calls (env : Env) (s : BotState) (user_query : String) :
    Except Err TurnOutcome × Bool :=
  match (rephrase_query env.rephrase_gen s.chat_history s.summary user_query).1 with
  | Except.error e => (Except.error e, false)
  | Except.ok standalone =>
    match env.classify_gen standalone with
    | Except.error e => (Except.error e, false)
    | Except.ok raw =>
      match hybrid_calls env standalone (classify_query raw) with
      | Except.error e => (Except.error e, false)
      | Except.ok results =>
        if results.isEmpty then
          (Except.ok (TurnOutcome.noDocs (classify_query raw)), false)
        else
          match env.answer_gen
              (generation_system_prompt s (context_text results)) standalone with
          | Except.error e => (Except.error e, true)
          | Except.ok answer =>
            (Except.ok (TurnOutcome.answered answer (classify_query raw)), true)

/-- `RAGChatBot.retrieval_augmented_generation`, src/main.py lines
286-364, as a state transformer.  No statement before the append of
line 361 mutates `chat_history` or `summary`, so a call failing before
then leaves the state exactly as it was; on the empty-retrieval path
the sentinel answer is returned with the category and no memory
mutation happens; on the answered path the turn is appended and
`manage_history` runs (whose compaction call may itself fail after the
oldest turn was already popped). -/
def retrieval_augmented_generation (env : Env) (s : BotState)
    (user_query : String) : BotState × Except Err (String × String) :=
  match (run_turn_calls env s user_query).1 with
  | Except.error e => (s, Except.error e)
  | Except.ok (TurnOutcome.noDocs category) =>
    (s, Except.ok (sentinel_answer, category))
  | Except.ok (TurnOutcome.answered answer category) =>
    let r := append_and_manage env.summarize s (user_query, answer)
    match r.2.1 with
    | Except.error e => (r.1, Except.error e)
    | Except.ok _ => (r.1, Except.ok (answer, category))

/-- C9: if any external call of a turn fails before final-answer
generation has succeeded (rephrasing, classification, either retrieval
call, or the generation call itself), the session state is returned
exactly as it was: no partial turn reaches `chat_history` and the
summary is untouched. -/
theorem failed_call_preserves_memory (env : Env) (s : BotState) (q e : String)
    (h : (run_turn_calls env s q).1 = Except.error e) :
    retrieval_augmented_generation env s q = (s, Except.error e) := by
  unfold retrieval_augmented_generation
  rw [h]

/-- C6: when retrieval comes back empty, the turn returns the fixed
sentinel answer paired with the classified category, the state is
unchanged, and the final-answer generation call is never issued. -/
theorem empty_retrieval_sentinel (env : Env) (s : BotState) (q cat : String)
    (h : (run_turn_calls env s q).1 = Except.ok (TurnOutcome.noDocs cat)) :
    retrieval_augmented_generation env s q =
        (s, Except.ok (sentinel_answer, cat)) ∧
      (run_turn_calls env s q).2 = false := by
  constructor
  · unfold retrieval_augmented_generation
    rw [h]
  · unfold run_turn_calls at h ⊢
    rcases h1 : (rephrase_query env.rephrase_gen s.chat_history s.summary q).1 with e | st
    · rfl
    · rw [h1] at h
      dsimp only at h ⊢
      rcases h2 : env.classify_gen st with e | raw
      · rfl
      · rw [h2] at h
        dsimp only at h ⊢
        rcases h3 : hybrid_calls env st (classify_query raw) with e | results
        · rfl
        · rw [h3] at h
          dsimp only at h ⊢
          by_cases h4 : results.isEmpty = true
          · rw [if_pos h4]
          · rw [if_neg h4] at h ⊢
            rcases h5 : env.answer_gen
                (generation_system_prompt s (context_text results)) st with e | ans
            · rw [h5] at h
              simp at h
            · rw [h5] at h
              simp at h

/-- C10: on the empty-retrieval path no turn is recorded:
`chat_history` and `summary` after the call are exactly what they were
before it. -/
theorem empty_retrieval_frame (env : Env) (s : BotState) (q cat : String)
    (h : (run_turn_calls env s q).1 = Except.ok (TurnOutcome.noDocs cat)) :
    (retrieval_augmented_generation env s q).1.chat_history = s.chat_history ∧
      (retrieval_augmented_generation env s q).1.summary = s.summary := by
  unfold retrieval_augmented_generation
  rw [h]
  exact ⟨rfl, rfl⟩

/-- Environment whose index calls both return no documents. -/
def env_no_docs : Env :=
  { rephrase_gen := fun _ _ => Except.ok ""
  , classify_gen := fun _ => Except.ok "SOPs"
  , vector_search := fun _ _ => Except.ok []
  , bm25_invoke := none
  , answer_gen := fun _ _ => Except.ok "unused"
  , summarize := fun _ _ => Except.ok "" }

/-- Environment whose classification call fails. -/
def env_classify_down : Env :=
  { env_no_docs with classify_gen := fun _ => Except.error "ClassifierUnavailable" }

/-- Witness for C9: with a failing classification call, a fresh
session's state survives the turn unchanged and the error surfaces. -/
theorem failed_call_preserves_memory_witness :
    retrieval_augmented_generation env_classify_down (init_state "top_k") "hello" =
      (init_state "top_k", Except.error "ClassifierUnavailable") :=
  failed_call_preserves_memory env_classify_down (init_state "top_k") "hello"
    "ClassifierUnavailable" rfl

/-- Witness for C6: with both index stubs empty, the turn returns the
sentinel with the classified category and never calls the generator. -/
theorem empty_retrieval_sentinel_witness :
    retrieval_augmented_generation env_no_docs (init_state "top_k") "hello" =
        (init_state "top_k", Except.ok (sentinel_answer, "SOPs")) ∧
      (run_turn_calls env_no_docs (init_state "top_k") "hello").2 = false :=
  empty_retrieval_sentinel env_no_docs (init_state "top_k") "hello" "SOPs" rfl

/-- Witness for C10: with both index stubs empty, memory is exactly as
before the call. -/
theorem empty_retrieval_frame_witness :
    (retrieval_augmented_generation env_no_docs (init_state "summary") "hi").1.chat_history =
        (init_state "summary").chat_history ∧
      (retrieval_augmented_generation env_no_docs (init_state "summary") "hi").1.summary =
        (init_state "summary").summary :=
  empty_retrieval_frame env_no_docs (init_state "summary") "hi" "SOPs" rfl
